import Mathlib

/-!
A shallow embedding of the protocol core of `sunnybeamtool.py` (class
`SunnyBeam`): the CRC-16/X-25 checksum, the escape/unescape byte-stuffing
transforms, frame assembly (`__read_raw_message`), the multi-chunk combined
read (`__do_combined_read_messages`), the measurement decoders
(`__parse_measurements`, `get_measurements`).

Bytes are modelled as `Nat` (values 0..255 in the Python source); Python
`bytearray`s as `List Nat`.  Python floats are modelled as exact rationals
(`Rat`); `struct.unpack` of an IEEE-754 single is decoded bit-exactly from
the four little-endian bytes.  Code paths that raise a Python exception are
modelled with `Option`/explicit error constructors.
-/

/-- The 256-entry FCS lookup table, transcribed verbatim from the source
(`fcstable` at the bottom of sunnybeamtool.py). -/
def fcstable : List Nat := [
    0x0000, 0x1189, 0x2312, 0x329b, 0x4624, 0x57ad, 0x6536, 0x74bf,
    0x8c48, 0x9dc1, 0xaf5a, 0xbed3, 0xca6c, 0xdbe5, 0xe97e, 0xf8f7,
    0x1081, 0x0108, 0x3393, 0x221a, 0x56a5, 0x472c, 0x75b7, 0x643e,
    0x9cc9, 0x8d40, 0xbfdb, 0xae52, 0xdaed, 0xcb64, 0xf9ff, 0xe876,
    0x2102, 0x308b, 0x0210, 0x1399, 0x6726, 0x76af, 0x4434, 0x55bd,
    0xad4a, 0xbcc3, 0x8e58, 0x9fd1, 0xeb6e, 0xfae7, 0xc87c, 0xd9f5,
    0x3183, 0x200a, 0x1291, 0x0318, 0x77a7, 0x662e, 0x54b5, 0x453c,
    0xbdcb, 0xac42, 0x9ed9, 0x8f50, 0xfbef, 0xea66, 0xd8fd, 0xc974,
    0x4204, 0x538d, 0x6116, 0x709f, 0x0420, 0x15a9, 0x2732, 0x36bb,
    0xce4c, 0xdfc5, 0xed5e, 0xfcd7, 0x8868, 0x99e1, 0xab7a, 0xbaf3,
    0x5285, 0x430c, 0x7197, 0x601e, 0x14a1, 0x0528, 0x37b3, 0x263a,
    0xdecd, 0xcf44, 0xfddf, 0xec56, 0x98e9, 0x8960, 0xbbfb, 0xaa72,
    0x6306, 0x728f, 0x4014, 0x519d, 0x2522, 0x34ab, 0x0630, 0x17b9,
    0xef4e, 0xfec7, 0xcc5c, 0xddd5, 0xa96a, 0xb8e3, 0x8a78, 0x9bf1,
    0x7387, 0x620e, 0x5095, 0x411c, 0x35a3, 0x242a, 0x16b1, 0x0738,
    0xffcf, 0xee46, 0xdcdd, 0xcd54, 0xb9eb, 0xa862, 0x9af9, 0x8b70,
    0x8408, 0x9581, 0xa71a, 0xb693, 0xc22c, 0xd3a5, 0xe13e, 0xf0b7,
    0x0840, 0x19c9, 0x2b52, 0x3adb, 0x4e64, 0x5fed, 0x6d76, 0x7cff,
    0x9489, 0x8500, 0xb79b, 0xa612, 0xd2ad, 0xc324, 0xf1bf, 0xe036,
    0x18c1, 0x0948, 0x3bd3, 0x2a5a, 0x5ee5, 0x4f6c, 0x7df7, 0x6c7e,
    0xa50a, 0xb483, 0x8618, 0x9791, 0xe32e, 0xf2a7, 0xc03c, 0xd1b5,
    0x2942, 0x38cb, 0x0a50, 0x1bd9, 0x6f66, 0x7eef, 0x4c74, 0x5dfd,
    0xb58b, 0xa402, 0x9699, 0x8710, 0xf3af, 0xe226, 0xd0bd, 0xc134,
    0x39c3, 0x284a, 0x1ad1, 0x0b58, 0x7fe7, 0x6e6e, 0x5cf5, 0x4d7c,
    0xc60c, 0xd785, 0xe51e, 0xf497, 0x8028, 0x91a1, 0xa33a, 0xb2b3,
    0x4a44, 0x5bcd, 0x6956, 0x78df, 0x0c60, 0x1de9, 0x2f72, 0x3efb,
    0xd68d, 0xc704, 0xf59f, 0xe416, 0x90a9, 0x8120, 0xb3bb, 0xa232,
    0x5ac5, 0x4b4c, 0x79d7, 0x685e, 0x1ce1, 0x0d68, 0x3ff3, 0x2e7a,
    0xe70e, 0xf687, 0xc41c, 0xd595, 0xa12a, 0xb0a3, 0x8238, 0x93b1,
    0x6b46, 0x7acf, 0x4854, 0x59dd, 0x2d62, 0x3ceb, 0x0e70, 0x1ff9,
    0xf78f, 0xe606, 0xd49d, 0xc514, 0xb1ab, 0xa022, 0x92b9, 0x8330,
    0x7bc7, 0x6a4e, 0x58d5, 0x495c, 0x3de3, 0x2c6a, 0x1ef1, 0x0f78]

/-- One step of the table-driven FCS loop of `calc_checksum`:
`tmp = (fcs ^ b) & 0xff; fcs = (fcs >> 8) ^ fcstable[tmp]`. -/
def fcsStep (fcs b : Nat) : Nat :=
  (fcs >>> 8) ^^^ (fcstable.getD ((fcs ^^^ b) &&& 0xff) 0)

/-- The FCS fold over a byte list starting from an accumulator (the core
loop shared by `calc_checksum` and the `crcmod` x-25 function `__CRCFUN`). -/
def fcsFold : List Nat → Nat → Nat
  | [], fcs => fcs
  | b :: rest, fcs => fcsFold rest (fcsStep fcs b)

/-- CRC-16/X-25 of a byte list: initial value 0xFFFF, table-driven fold,
final XOR with 0xFFFF.  This is the semantics of
`crcmod.predefined.mkCrcFun` for preset x-25, used as the CRCFUN field, and of the
escape-free path of `calc_checksum`. -/
def crcX25 (msg : List Nat) : Nat := fcsFold msg 0xffff ^^^ 0xffff

/-- Model of `crc.to_bytes` with length 2 and little byte order: the two little-endian
bytes of a 16-bit checksum. -/
def crcBytesLE (c : Nat) : List Nat := [c &&& 0xff, (c >>> 8) &&& 0xff]

/-- Python `~b` on a `bool`: `True` and `False` are the integers 1 and 0,
so the `~` of `ignore_escaping` is the twos-complement integer `-b - 1`. -/
def pyBoolNot (b : Bool) : Int := -(if b then 1 else 0) - 1

/-- The loop of `calc_checksum` over `msg[1:-3]`: the guard
`if ~ignore_escaping and b == 0x7d` skips the escape marker and arms the
escape flag; otherwise a pending escape XORs the byte with 0x20 before it
enters the FCS step.  Python truthiness of the integer `~ignore_escaping`
is `≠ 0`. -/
def calcChecksumGo (ignore_escaping : Bool) : List Nat → Bool → Nat → Nat
  | [], _, fcs => fcs ^^^ 0xffff
  | b :: rest, escape_next, fcs =>
    if pyBoolNot ignore_escaping ≠ 0 ∧ b = 0x7d then
      calcChecksumGo ignore_escaping rest true fcs
    else
      let b' := if escape_next then b ^^^ 0x20 else b
      calcChecksumGo ignore_escaping rest false (fcsStep fcs b')

/-- Model of `calc_checksum(msg, ignore_escaping)` from the source: folds the FCS
over `msg[1:-3]` with escape handling, returning `fcs ^ 0xffff`. -/
def calc_checksum (msg : List Nat) (ignore_escaping : Bool) : Nat :=
  calcChecksumGo ignore_escaping ((msg.take (msg.length - 3)).drop 1) false 0xffff

/-- The checksum-byte escaping of `__send_raw_message` (lines 160-169),
generalized over a byte list: 0x7E becomes 0x7D 0x5E, 0x7D becomes
0x7D 0x5D, every other byte is kept. -/
def escapeBytes : List Nat → List Nat
  | [] => []
  | v :: rest =>
    (if v = 0x7e then [0x7d, 0x5e]
     else if v = 0x7d then [0x7d, 0x5d]
     else [v]) ++ escapeBytes rest

/-- The pending-escape unescaping of `__send_raw_message` (lines 146-155,
building `msg_for_crc`): an 0x7D is dropped and arms the escape flag; a
byte under an armed flag is XORed with 0x20. -/
def unescapeBytes : List Nat → Bool → List Nat
  | [], _ => []
  | b :: rest, escape_next =>
    if b = 0x7d then unescapeBytes rest true
    else if escape_next then (b ^^^ 0x20) :: unescapeBytes rest false
    else b :: unescapeBytes rest false

/-- Mutable state of `__read_raw_message` that survives across raw chunks:
the output buffer `buf_out`, the `start_found` flag and the
`previous_char_is_escape` flag. -/
structure RMState where
  buf : List Nat
  startFound : Bool
  escape : Bool
  deriving DecidableEq

/-- The inner byte loop of `__read_raw_message` (lines 198-227), processing
the bytes of one raw chunk from index 2 on.  `prev` is the raw byte
`buf_in[p-1]`.  Returns `none` when `del buf_out[-1]` is executed on an
empty buffer (Python IndexError); otherwise the updated state and whether
the end flag was seen (which breaks both loops).  The Python variable `end_found` is
recomputed per byte here, which is faithful: once set it is immediately
followed by the append and the break, since the flag byte 0x7E never takes
one of the `continue` paths (it is neither 0x60 nor 0x7D). -/
def procBytes : List Nat → Nat → RMState → Option (RMState × Bool)
  | [], _, s => some (s, false)
  | b :: rest, prev, s =>
    let sf := s.startFound || b == 0x7e
    let ef := s.startFound && b == 0x7e
    if sf && b == 0x60 && prev == 0x01 then
      match s.buf with
      | [] => none
      | _ :: _ => procBytes rest b { s with buf := s.buf.dropLast, startFound := sf }
    else if b == 0x7d then
      procBytes rest b { s with startFound := sf, escape := true }
    else
      let b2 := if s.escape then
          (if b == 0x5e then 0x7e else if b == 0x5d then 0x7d else b ^^^ 0x20)
        else b
      let s2 : RMState := ⟨s.buf ++ [b2], sf, false⟩
      if ef then some (s2, true) else procBytes rest b s2

/-- One transport read of `__read_raw_message`: a chunk of length at most 2
is skipped entirely (`if len(buf_in) > 2`); otherwise its bytes from index
2 are processed, with `buf_in[1]` as the initial previous byte. -/
def processChunk (chunk : List Nat) (s : RMState) : Option (RMState × Bool) :=
  match chunk with
  | _ :: c1 :: c2 :: rest => procBytes (c2 :: rest) c1 s
  | _ => some (s, false)

/-- The outer attempt loop of `__read_raw_message`: each element of
`chunks` is one raw transport read (the list length plays the role of the
`max_iterations` budget); processing stops early when a chunk reports the
end flag. -/
def assembleLoop : List (List Nat) → RMState → Option RMState
  | [], s => some s
  | c :: cs, s =>
    match processChunk c s with
    | none => none
    | some (s2, true) => some s2
    | some (s2, false) => assembleLoop cs s2

/-- The frame assembled by `__read_raw_message` from the successive raw
transport reads, before the final CRC check; `none` models the IndexError
of `del buf_out[-1]` on an empty buffer. -/
def assembled (chunks : List (List Nat)) : Option (List Nat) :=
  (assembleLoop chunks ⟨[], false, false⟩).map RMState.buf

/-- The trailing-checksum comparison of `__read_raw_message` (lines
234-239): recompute the CRC over `buf_out[1:-3]` and compare its two
little-endian bytes with `buf_out[-3:-1]`.  `true` means mismatch (the
source logs a warning). -/
def crcMismatch (buf : List Nat) : Bool :=
  crcBytesLE (crcX25 ((buf.take (buf.length - 3)).drop 1))
    != (buf.take (buf.length - 1)).drop (buf.length - 3)

/-- Model of `__read_raw_message`: assemble the frame from the raw reads, then, when
the result is longer than 2 bytes, recompute and compare the CRC — a
mismatch is only logged (modelled by the boolean), and the assembled bytes
are returned either way. -/
def read_raw_message (chunks : List (List Nat)) : Option (List Nat × Bool) :=
  match assembled chunks with
  | none => none
  | some buf =>
    if 2 < buf.length then
      if crcMismatch buf then some (buf, true) else some (buf, false)
    else some (buf, false)

/-- Why the combined read of `__do_combined_read_messages` stopped. -/
inductive StopReason where
  | countZero
  | budget
  | emptyFrame
  deriving DecidableEq

/-- Result of `__do_combined_read_messages`: the sentinel `0` (syn-online
or a send failed), the accumulated buffer together with the number of
frame reads performed and the reason the loop stopped, or the IndexError
raised by `tmpbuf[10]` on a too-short frame. -/
inductive CombinedOutcome where
  | sentinelZero
  | ok (buf : List Nat) (readsDone : Nat) (reason : StopReason)
  | oob
  deriving DecidableEq

/-- One iteration body of the while loop of `__do_combined_read_messages`
(after the budget check): read a frame (`reads` is the schedule of
successive `__read_raw_message` results, an exhausted schedule reads
empty), return the accumulator if it is empty, append `tmpbuf[12:-3]` if
the frame is longer than 12 bytes, then reload `linecnt` from
`tmpbuf[10]` (IndexError when the frame is 10 bytes or shorter). -/
def combinedRead (reads : List (List Nat)) (buf : List Nat) (readsDone : Nat)
    (writes : List Nat) :
    CombinedOutcome ⊕ (Nat × List Nat × List (List Nat) × List Nat × Nat) :=
  let tmpbuf := reads.headD []
  if tmpbuf.length = 0 then .inl (.ok buf (readsDone + 1) .emptyFrame)
  else
    let buf2 := if 12 < tmpbuf.length then
        buf ++ (tmpbuf.take (tmpbuf.length - 3)).drop 12
      else buf
    match tmpbuf.get? 10 with
    | none => .inl .oob
    | some lc => .inr (lc, writes, reads.tail, buf2, readsDone + 1)

/-- One full iteration of the while loop: when `linecnt` is not the 0xFF
sentinel, first send the continuation request (consuming the next entry of
the `writes` schedule of bytes-written results; a zero result returns the
sentinel 0), then do the read step. -/
def combinedStep (linecnt : Nat) (writes : List Nat) (reads : List (List Nat))
    (buf : List Nat) (readsDone : Nat) :
    CombinedOutcome ⊕ (Nat × List Nat × List (List Nat) × List Nat × Nat) :=
  if linecnt = 0xFF then combinedRead reads buf readsDone writes
  else if writes.headD 0 = 0 then .inl .sentinelZero
  else combinedRead reads buf readsDone writes.tail

/-- The while loop of `__do_combined_read_messages`, with `mn` the running
retry budget `min`: exit with the accumulator when `linecnt` is 0; the
budget decrement `min -= 1; if min == 0: break` fires when the incoming
budget is 1 (the value 0 is unreachable from the initial budget 20 and is
mapped to the same break). -/
def combinedLoop : Nat → Nat → List Nat → List (List Nat) → List Nat → Nat → CombinedOutcome
  | 0, linecnt, _, _, buf, readsDone =>
    if linecnt = 0 then .ok buf readsDone .countZero else .ok buf readsDone .budget
  | mn + 1, linecnt, writes, reads, buf, readsDone =>
    if linecnt = 0 then .ok buf readsDone .countZero
    else if mn = 0 then .ok buf readsDone .budget
    else
      match combinedStep linecnt writes reads buf readsDone with
      | .inl out => out
      | .inr (lc, ws, rs, b, n) => combinedLoop mn lc ws rs b n

/-- Model of `__do_combined_read_messages`: `synOk` is the result of
`__do_syn_online`, `writes` the schedule of bytes-written results of the
successive `__send_raw_message` calls (the first entry is the initial
command), `reads` the schedule of assembled frames returned by the
successive `__read_raw_message` calls.  The loop starts with budget 20 and
`linecnt = 0xFF`. -/
def do_combined_read_messages (synOk : Bool) (writes : List Nat)
    (reads : List (List Nat)) : CombinedOutcome :=
  if !synOk then .sentinelZero
  else
    match writes with
    | [] => .sentinelZero
    | w :: ws => if w = 0 then .sentinelZero else combinedLoop 20 0xFF ws reads [] 0

/-- The payload fragment `tmpbuf[12:-3]` a frame contributes to the
combined-read accumulator: the frame with its first 12 bytes and last 3
bytes stripped. -/
def frag (f : List Nat) : List Nat := (f.take (f.length - 3)).drop 12

/-- The little-endian word encoded by a byte list, as read by
`struct.unpack` with the formats i and f. -/
def leWord (bs : List Nat) : Nat := bs.foldr (fun b acc => acc * 256 + b) 0

/-- Model of `struct.unpack` with format i: the signed twos-complement value of a
32-bit word. -/
def sint32 (w : Nat) : Int := if w < 2 ^ 31 then (w : Int) else (w : Int) - 2 ^ 32

/-- The exact rational value of an IEEE-754 single-precision word, as
produced by `struct.unpack` with format f: sign, 8-bit exponent, 23-bit
mantissa; `none` for the non-finite encodings (exponent 255: infinities
and NaNs). -/
def f32ToRat (w : Nat) : Option Rat :=
  let s : Nat := w / 2 ^ 31 % 2
  let e : Nat := w / 2 ^ 23 % 2 ^ 8
  let m : Nat := w % 2 ^ 23
  if e = 255 then none
  else
    let mag : Rat :=
      if e = 0 then ((m : Nat) : Rat) / ((2 ^ 149 : Nat) : Rat)
      else (((2 ^ 23 + m) * 2 ^ e : Nat) : Rat) / ((2 ^ 150 : Nat) : Rat)
    some (if s = 1 then -mag else mag)

/-- Floor of a rational (denominator is always positive, so Euclidean
division of the numerator floors). -/
def ratFloor (q : Rat) : Int := Int.ediv q.num q.den

/-- Python `round(x)` / `round(x, 0)` on a finite value: round half to
even. -/
def roundHalfEven (q : Rat) : Int :=
  let f := ratFloor q
  let fr := q - (f : Rat)
  if fr < 1 / 2 then f
  else if 1 / 2 < fr then f + 1
  else if f % 2 = 0 then f else f + 1

/-- Python `int(x)` on a finite float: truncation toward zero. -/
def ratTrunc (q : Rat) : Int := Int.tdiv q.num q.den

/-- Python `round(x, 3)` on a finite value, modelled as exact decimal
rounding (half to even) at the third decimal. -/
def roundTo3 (q : Rat) : Rat := (roundHalfEven (q * 1000) : Rat) / 1000

/-- One 12-byte record of `__parse_measurements` (lines 131-137): the
value is the rounded float unpacked from `part_buf[8:]` — `none` when the bits are
non-finite, in which case Python carries a NaN — and the timestamp is
the int unpacked from `part_buf[0:4]`.  `struct.unpack` demands exactly 4 bytes, so
a short slice (short trailing record) raises `struct.error`, modelled as
`none`. -/
def decodeRecord (part : List Nat) : Option (Int × Option Int) :=
  if (part.drop 8).length = 4 ∧ (part.take 4).length = 4 then
    some (sint32 (leWord (part.take 4)), (f32ToRat (leWord (part.drop 8))).map roundHalfEven)
  else none

/-- The record loop of `__parse_measurements`:
`for i in range(5, len(rawdata), 12)` consumes `rawdata[i:i+12]` slices,
i.e. successive 12-byte chunks of `rawdata[5:]` while bytes remain.  The
fuel is only a structural-recursion bound; callers pass at least the list
length, so the fuel never runs out. -/
def parseChunks : Nat → List Nat → Option (List (Int × Option Int))
  | _, [] => some []
  | 0, _ :: _ => none
  | fuel + 1, b :: rest =>
    match decodeRecord ((b :: rest).take 12) with
    | none => none
    | some r => (parseChunks fuel ((b :: rest).drop 12)).map (r :: ·)

/-- Result of `__parse_measurements`: the sentinel `0` for an empty input,
or the decoded record list. -/
inductive ParseResult where
  | sentinelZero
  | records (rs : List (Int × Option Int))
  deriving DecidableEq

/-- Model of `__parse_measurements(rawdata)`: sentinel `0` on empty input, else the
records decoded from offset 5 in 12-byte strides, reversed before return;
`none` models a raised exception (struct.error on a short slice). -/
def parse_measurements (rawdata : List Nat) : Option ParseResult :=
  if rawdata.length = 0 then some .sentinelZero
  else (parseChunks rawdata.length (rawdata.drop 5)).map (fun rs => .records rs.reverse)

/-- Model of `struct.unpack` with format f on `bs`: requires exactly 4 bytes (outer `none` is a
struct.error), and yields `none` inside for non-finite bit patterns. -/
def unpackF32 (bs : List Nat) : Option (Option Rat) :=
  if bs.length = 4 then some (f32ToRat (leWord bs)) else none

/-- Result of `get_measurements`: the sentinel `0`; the measurement tuple
  `(pac, etoday, etotal)` (`none` components carry a NaN); the
UnboundLocalError raised by the fall-through `return (pac, etoday,
etotal)` when the live-data send wrote zero bytes; or any other raised
exception (struct.error on a short frame, ValueError from `int(nan)`). -/
inductive MeasOutcome where
  | sentinelZero
  | tuple (pac : Int) (etoday etotal : Option Rat)
  | unboundLocal
  | raisesOther
  deriving DecidableEq

/-- Model of `get_measurements`: needs `__connected` and a successful
`__do_syn_online` (which fails exactly when its send wrote 0 bytes,
`synWrite = 0`); then sends the live-data command (`dataWrite` bytes
written) and reads one frame.  When the send reported success the empty
frame yields the sentinel 0 and otherwise the three floats at offsets
25-29, 29-33, 33-37 are decoded; when the send wrote zero bytes, control
falls through to `return (pac, etoday, etotal)` with the three local
names never assigned, raising UnboundLocalError. -/
def get_measurements (connected : Bool) (synWrite dataWrite : Nat)
    (frame : List Nat) : MeasOutcome :=
  if !connected || synWrite = 0 then .sentinelZero
  else if 0 < dataWrite then
    if frame.length = 0 then .sentinelZero
    else
      match unpackF32 ((frame.take 29).drop 25), unpackF32 ((frame.take 33).drop 29),
            unpackF32 ((frame.take 37).drop 33) with
      | some pOpt, some t1, some t2 =>
        match pOpt with
        | none => .raisesOther
        | some p => .tuple (ratTrunc p) (t1.map roundTo3) (t2.map roundTo3)
      | _, _, _ => .raisesOther
  else .unboundLocal

/-- C5: the table-driven CRC core (initial value 0xFFFF, per-byte step
`fcs = (fcs >> 8) XOR fcstable[(fcs XOR byte) & 0xFF]`, final XOR 0xFFFF),
applied so that exactly the nine ASCII bytes of "123456789" are consumed,
yields the CRC-16/X-25 canonical check value 0x906E; both directly via
`crcX25` and via `calc_checksum` on a frame whose `msg[1:-3]` slice is
exactly those nine bytes. -/
theorem crc_x25_check_value :
    crcX25 [0x31, 0x32, 0x33, 0x34, 0x35, 0x36, 0x37, 0x38, 0x39] = 0x906e ∧
    calc_checksum
      [0x7e, 0x31, 0x32, 0x33, 0x34, 0x35, 0x36, 0x37, 0x38, 0x39, 0x00, 0x00, 0x7e]
      true = 0x906e := by
  constructor <;> rfl

/-- Helper for C9: the `calc_checksum` loop body does not depend on the
`ignore_escaping` flag, because the Python `~` of either boolean is a nonzero
integer, so the guard reduces to `b == 0x7d` in both cases. -/
theorem calcChecksumGo_flag_irrelevant (l : List Nat) :
    ∀ esc fcs, calcChecksumGo true l esc fcs = calcChecksumGo false l esc fcs := by
  have ht : pyBoolNot true ≠ 0 := by decide
  have hf : pyBoolNot false ≠ 0 := by decide
  induction l with
  | nil => intro esc fcs; rfl
  | cons b rest ih =>
    intro esc fcs
    by_cases hb : b = 0x7d
    · simp [calcChecksumGo, ht, hf, hb, ih]
    · simp [calcChecksumGo, ht, hf, hb, ih]

/-- C9: for every message buffer, `calc_checksum msg True = calc_checksum
msg False`: the `ignore_escaping` parameter has no observable effect, since
the guard applies Python `~` to the flag, which is nonzero (truthy) for
both booleans, so escape processing happens either way. -/
theorem calc_checksum_ignore_escaping_irrelevant (msg : List Nat) :
    calc_checksum msg true = calc_checksum msg false := by
  unfold calc_checksum
  exact calcChecksumGo_flag_irrelevant _ false 0xffff

/-- C4: unescaping the escaped form recovers the original byte sequence:
with `escapeBytes` replacing 0x7E by 0x7D 0x5E and 0x7D by 0x7D 0x5D (as
`__send_raw_message` does for checksum bytes) and `unescapeBytes` the
pending-escape transform that drops each 0x7D and XORs the following byte
with 0x20, `Unescape(Escape(seq)) = seq` for every sequence, including
those containing 0x7E or 0x7D. -/
theorem unescape_escape_roundtrip (seq : List Nat) :
    unescapeBytes (escapeBytes seq) false = seq := by
  have hx1 : (0x5e : Nat) ^^^ 0x20 = 0x7e := by decide
  have hx2 : (0x5d : Nat) ^^^ 0x20 = 0x7d := by decide
  induction seq with
  | nil => rfl
  | cons v rest ih =>
    by_cases h7e : v = 0x7e
    · subst h7e; simp [escapeBytes, unescapeBytes, hx1, ih]
    · by_cases h7d : v = 0x7d
      · subst h7d; simp [escapeBytes, unescapeBytes, hx2, ih]
      · simp [escapeBytes, unescapeBytes, h7e, h7d, ih]

/-- C1: for every assembled frame of length greater than 2 whose recomputed
CRC-16/X-25 over bytes [1, len-3) differs from the trailing checksum bytes
at [len-3, len-1), `__read_raw_message` still returns the full assembled
frame: the mismatch only sets the logged-warning flag, it never raises,
never empties the result, and never changes the returned bytes. -/
theorem read_raw_message_keeps_frame_on_crc_mismatch
    (chunks : List (List Nat)) (buf : List Nat)
    (hassem : assembled chunks = some buf)
    (hlen : 2 < buf.length)
    (hmis : crcMismatch buf = true) :
    read_raw_message chunks = some (buf, true) := by
  unfold read_raw_message
  rw [hassem]
  simp [hlen, hmis]

/-- Witness for C1: a concrete single-read frame `7E 01 02 03 04 7E` whose
trailing bytes `03 04` do not match the CRC of `01 02`; the frame is
returned unchanged with the warning flag set. -/
theorem read_raw_message_crc_mismatch_witness :
    assembled [[0, 0, 0x7e, 1, 2, 3, 4, 0x7e]] = some [0x7e, 1, 2, 3, 4, 0x7e] ∧
    2 < [0x7e, 1, 2, 3, 4, 0x7e].length ∧
    crcMismatch [0x7e, 1, 2, 3, 4, 0x7e] = true ∧
    read_raw_message [[0, 0, 0x7e, 1, 2, 3, 4, 0x7e]] = some ([0x7e, 1, 2, 3, 4, 0x7e], true) :=
  ⟨by decide, by decide, by decide,
    read_raw_message_keeps_frame_on_crc_mismatch _ _ (by decide) (by decide) (by decide)⟩

/-- Helper for C6: after the start flag, a byte that is none of 0x7E, 0x7D,
0x60 is appended unchanged and processing continues with it as the new
previous byte. -/
theorem procBytes_plain_step (b : Nat) (l : List Nat) (prev : Nat) (buf : List Nat)
    (h7e : b ≠ 0x7e) (h7d : b ≠ 0x7d) (h60 : b ≠ 0x60) :
    procBytes (b :: l) prev ⟨buf, true, false⟩ = procBytes l b ⟨buf ++ [b], true, false⟩ := by
  simp [procBytes, h7e, h7d, h60]

/-- Helper for C6: a run of bytes free of 0x7E, 0x7D and 0x60 is appended
verbatim, the previous-byte tracker ending on the last byte of the run. -/
theorem procBytes_plain_run (ms : List Nat) :
    ∀ prev buf tail, (∀ b ∈ ms, ¬(b = 0x7e ∨ b = 0x7d ∨ b = 0x60)) →
      procBytes (ms ++ tail) prev ⟨buf, true, false⟩ =
        procBytes tail (ms.getLastD prev) ⟨buf ++ ms, true, false⟩ := by
  induction ms with
  | nil => intro prev buf tail _; simp
  | cons b ms ih =>
    intro prev buf tail hms
    have hb := hms b (List.mem_cons_self _ _)
    push_neg at hb
    rw [List.cons_append, procBytes_plain_step b (ms ++ tail) prev buf hb.1 hb.2.1 hb.2.2,
      ih b (buf ++ [b]) tail (fun x hx => hms x (List.mem_cons_of_mem _ hx)),
      List.getLastD_cons]
    simp [List.append_assoc]

/-- Helper for C6: full processing of a single chunk payload that carries a
start flag, plain bytes, the idle artifact `01 60`, plain bytes and the end
flag: the emitted 0x01 of the artifact is deleted again, the 0x60 is never
appended, and the loop stops right at the end flag with it appended. -/
theorem procBytes_artifact (m1 m2 rest : List Nat) (prev : Nat)
    (hm1 : ∀ b ∈ m1, ¬(b = 0x7e ∨ b = 0x7d ∨ b = 0x60))
    (hm2 : ∀ b ∈ m2, ¬(b = 0x7e ∨ b = 0x7d ∨ b = 0x60)) :
    procBytes (0x7e :: (m1 ++ 0x01 :: 0x60 :: (m2 ++ 0x7e :: rest))) prev ⟨[], false, false⟩ =
      some (⟨0x7e :: (m1 ++ (m2 ++ [0x7e])), true, false⟩, true) := by
  have step1 : procBytes (0x7e :: (m1 ++ 0x01 :: 0x60 :: (m2 ++ 0x7e :: rest))) prev
      ⟨[], false, false⟩ =
      procBytes (m1 ++ 0x01 :: 0x60 :: (m2 ++ 0x7e :: rest)) 0x7e ⟨[0x7e], true, false⟩ := by
    simp [procBytes]
  rw [step1, procBytes_plain_run m1 0x7e [0x7e] _ hm1,
    procBytes_plain_step 0x01 _ _ _ (by decide) (by decide) (by decide)]
  have step60 : procBytes (0x60 :: (m2 ++ 0x7e :: rest)) 0x01
      ⟨[0x7e] ++ m1 ++ [0x01], true, false⟩ =
      procBytes (m2 ++ 0x7e :: rest) 0x60 ⟨[0x7e] ++ m1, true, false⟩ := by
    have hne : ([0x7e] ++ m1 ++ [0x01] : List Nat) = 0x7e :: (m1 ++ [0x01]) := by simp
    have hdl : (0x7e :: (m1 ++ [0x01])).dropLast = 0x7e :: m1 := by
      rw [show (0x7e :: (m1 ++ [0x01]) : List Nat) = (0x7e :: m1) ++ [0x01] by simp,
        List.dropLast_concat]
    simp [procBytes, hne, hdl]
  rw [step60, procBytes_plain_run m2 0x60 ([0x7e] ++ m1) _ hm2]
  simp [procBytes]

/-- C6: for a raw input chunk consisting of two transport-header bytes, the
start flag 0x7E, payload bytes, the two-byte idle artifact `01 60`, more
payload bytes and the end flag 0x7E (payload free of the special bytes
0x7E/0x7D/0x60), `__read_raw_message` discards exactly one byte for the
artifact — the 0x01 emitted immediately before the 0x60 — does not append
the 0x60 itself, and terminates the assembled frame exactly at the first
end flag: everything after it is not processed, and the frame ends with
that flag. -/
theorem read_frame_idle_artifact (h0 h1 : Nat) (m1 m2 rest : List Nat)
    (hm1 : ∀ b ∈ m1, ¬(b = 0x7e ∨ b = 0x7d ∨ b = 0x60))
    (hm2 : ∀ b ∈ m2, ¬(b = 0x7e ∨ b = 0x7d ∨ b = 0x60)) :
    assembled [h0 :: h1 :: 0x7e :: (m1 ++ 0x01 :: 0x60 :: (m2 ++ 0x7e :: rest))] =
      some (0x7e :: (m1 ++ (m2 ++ [0x7e]))) := by
  simp only [assembled, assembleLoop, processChunk]
  rw [procBytes_artifact m1 m2 rest h1 hm1 hm2]
  rfl

/-- Witness for C6: the chunk `00 00 7E 11 01 60 22 7E 99` assembles to the
frame `7E 11 22 7E` — the emitted 0x01 is deleted, the 0x60 dropped, and
the trailing 0x99 after the end flag is never processed. -/
theorem read_frame_idle_artifact_witness :
    (∀ b ∈ [0x11], ¬(b = 0x7e ∨ b = 0x7d ∨ b = 0x60)) ∧
    (∀ b ∈ [0x22], ¬(b = 0x7e ∨ b = 0x7d ∨ b = 0x60)) ∧
    assembled [[0x00, 0x00, 0x7e, 0x11, 0x01, 0x60, 0x22, 0x7e, 0x99]] =
      some [0x7e, 0x11, 0x22, 0x7e] :=
  ⟨by decide, by decide,
    read_frame_idle_artifact 0x00 0x00 [0x11] [0x22] [0x99] (by decide) (by decide)⟩

/-- C3: when the device returns four successive non-empty frames, each
longer than 12 bytes, whose byte at index 10 declares remaining-chunk
counts 3, 2, 1, 0 in that order (and every send succeeds),
`__do_combined_read_messages` performs exactly 4 frame reads, appends
exactly the 4 payload fragments (first 12 and last 3 bytes stripped) in
order, and terminates because the declared count reached 0, not because
the 20-iteration budget was exhausted. -/
theorem combined_read_four_chunks
    (f1 f2 f3 f4 : List Nat) (w1 w2 w3 : Nat)
    (hl1 : 12 < f1.length) (hl2 : 12 < f2.length)
    (hl3 : 12 < f3.length) (hl4 : 12 < f4.length)
    (hc1 : f1[10]? = some 3) (hc2 : f2[10]? = some 2)
    (hc3 : f3[10]? = some 1) (hc4 : f4[10]? = some 0)
    (hw1 : w1 ≠ 0) (hw2 : w2 ≠ 0) (hw3 : w3 ≠ 0) :
    do_combined_read_messages true [1, w1, w2, w3] [f1, f2, f3, f4] =
      .ok (frag f1 ++ (frag f2 ++ (frag f3 ++ frag f4))) 4 .countZero := by
  have hn1 : ¬f1.length = 0 := by omega
  have hn2 : ¬f2.length = 0 := by omega
  have hn3 : ¬f3.length = 0 := by omega
  have hn4 : ¬f4.length = 0 := by omega
  simp [do_combined_read_messages, combinedLoop, combinedStep, combinedRead, frag,
    hn1, hn2, hn3, hn4, hl1, hl2, hl3, hl4, hc1, hc2, hc3, hc4, hw1, hw2, hw3]

/-- Witness for C3: four concrete 16-byte frames with declared counts
3, 2, 1, 0 produce exactly their four one-byte fragments, 4 reads, and the
count-reached-zero stop. -/
theorem combined_read_four_chunks_witness :
    12 < ([0, 0, 0, 0, 0, 0, 0, 0, 0, 0, 3, 0, 0xb1, 0, 0, 0] : List Nat).length ∧
    ([0, 0, 0, 0, 0, 0, 0, 0, 0, 0, 3, 0, 0xb1, 0, 0, 0] : List Nat)[10]? = some 3 ∧
    do_combined_read_messages true [1, 1, 1, 1]
        [[0, 0, 0, 0, 0, 0, 0, 0, 0, 0, 3, 0, 0xb1, 0, 0, 0],
         [0, 0, 0, 0, 0, 0, 0, 0, 0, 0, 2, 0, 0xb2, 0, 0, 0],
         [0, 0, 0, 0, 0, 0, 0, 0, 0, 0, 1, 0, 0xb3, 0, 0, 0],
         [0, 0, 0, 0, 0, 0, 0, 0, 0, 0, 0, 0, 0xb4, 0, 0, 0]] =
      .ok [0xb1, 0xb2, 0xb3, 0xb4] 4 .countZero := by
  refine ⟨by decide, by decide, ?_⟩
  have h := combined_read_four_chunks
    [0, 0, 0, 0, 0, 0, 0, 0, 0, 0, 3, 0, 0xb1, 0, 0, 0]
    [0, 0, 0, 0, 0, 0, 0, 0, 0, 0, 2, 0, 0xb2, 0, 0, 0]
    [0, 0, 0, 0, 0, 0, 0, 0, 0, 0, 1, 0, 0xb3, 0, 0, 0]
    [0, 0, 0, 0, 0, 0, 0, 0, 0, 0, 0, 0, 0xb4, 0, 0, 0]
    1 1 1 (by decide) (by decide) (by decide) (by decide) (by decide) (by decide)
    (by decide) (by decide) (by decide) (by decide) (by decide)
  rw [h]
  rfl

/-- Helper for C10: under the length precondition on the read schedule,
the read step never reports the IndexError outcome when it ends the
operation. -/
theorem combinedRead_inl_not_oob (reads : List (List Nat)) (buf : List Nat)
    (n : Nat) (ws : List Nat)
    (hpre : ∀ f ∈ reads, f ≠ [] → 11 ≤ f.length) :
    ∀ out, combinedRead reads buf n ws = .inl out → out ≠ .oob := by
  intro out h
  unfold combinedRead at h
  by_cases hlen : (reads.headD []).length = 0
  · rw [if_pos hlen] at h
    cases h
    intro hk
    cases hk
  · rw [if_neg hlen] at h
    cases reads with
    | nil => simp at hlen
    | cons f rs =>
      have hf : 11 ≤ f.length := by
        refine hpre f (List.mem_cons_self _ _) ?_
        intro hnil
        rw [hnil] at hlen
        simp at hlen
      have h10 : 10 < f.length := by omega
      simp only [List.headD_cons, List.tail_cons] at h
      rw [List.get?_eq_get h10] at h
      cases h

/-- Helper for C10: when the read step continues the loop, the remaining
read schedule is the tail of the current one. -/
theorem combinedRead_inr_tail (reads : List (List Nat)) (buf : List Nat)
    (n : Nat) (ws : List Nat) :
    ∀ lc ws2 rs b m, combinedRead reads buf n ws = .inr (lc, ws2, rs, b, m) →
      rs = reads.tail := by
  intro lc ws2 rs b m h
  unfold combinedRead at h
  by_cases hlen : (reads.headD []).length = 0
  · rw [if_pos hlen] at h
    cases h
  · rw [if_neg hlen] at h
    cases h10 : (reads.headD []).get? 10 with
    | none => rw [h10] at h; cases h
    | some v =>
      rw [h10] at h
      cases h
      rfl

/-- Helper for C10: the same two facts for the full iteration step (which
may additionally stop with the sentinel on a failed send). -/
theorem combinedStep_safe (linecnt : Nat) (writes : List Nat)
    (reads : List (List Nat)) (buf : List Nat) (n : Nat)
    (hpre : ∀ f ∈ reads, f ≠ [] → 11 ≤ f.length) :
    (∀ out, combinedStep linecnt writes reads buf n = .inl out → out ≠ .oob) ∧
    (∀ lc ws rs b m, combinedStep linecnt writes reads buf n = .inr (lc, ws, rs, b, m) →
      rs = reads.tail) := by
  unfold combinedStep
  by_cases hff : linecnt = 0xFF
  · rw [if_pos hff]
    exact ⟨combinedRead_inl_not_oob reads buf n writes hpre,
      combinedRead_inr_tail reads buf n writes⟩
  · rw [if_neg hff]
    by_cases hw : writes.headD 0 = 0
    · rw [if_pos hw]
      constructor
      · intro out h; cases h; intro hk; cases hk
      · intro lc ws2 rs b m h; cases h
    · rw [if_neg hw]
      exact ⟨combinedRead_inl_not_oob reads buf n writes.tail hpre,
        combinedRead_inr_tail reads buf n writes.tail⟩

/-- Helper for C10: the while loop of the combined read never reaches the
IndexError outcome as long as every non-empty frame the transport hands
back is at least 11 bytes long. -/
theorem combinedLoop_not_oob (mn : Nat) :
    ∀ linecnt writes reads buf readsDone,
      (∀ f ∈ reads, f ≠ [] → 11 ≤ f.length) →
      combinedLoop mn linecnt writes reads buf readsDone ≠ .oob := by
  induction mn with
  | zero =>
    intro lc ws rs buf n _
    unfold combinedLoop
    split
    · intro hk; cases hk
    · intro hk; cases hk
  | succ mn ih =>
    intro lc ws rs buf n hpre
    unfold combinedLoop
    by_cases h0 : lc = 0
    · rw [if_pos h0]; intro hk; cases hk
    · rw [if_neg h0]
      by_cases hmn : mn = 0
      · rw [if_pos hmn]; intro hk; cases hk
      · rw [if_neg hmn]
        obtain ⟨hinl, hinr⟩ := combinedStep_safe lc ws rs buf n hpre
        cases hstep : combinedStep lc ws rs buf n with
        | inl out =>
          simpa using hinl out hstep
        | inr st =>
          obtain ⟨lc2, ws2, rs2, b2, n2⟩ := st
          have htail := hinr lc2 ws2 rs2 b2 n2 hstep
          simp only []
          refine ih lc2 ws2 rs2 b2 n2 ?_
          rw [htail]
          intro f hf
          exact hpre f (List.mem_of_mem_tail hf)

/-- C10: `__do_combined_read_messages` reads the continuation counter from
index 10 of each non-empty frame unconditionally.  Under the precondition
that every non-empty frame of the read schedule is at least 11 bytes long,
the operation never performs the out-of-bounds access; and the
precondition is necessary: a transport returning the single-byte frame
`[5]` makes the `tmpbuf[10]` access raise IndexError instead of the
accumulated output being returned. -/
theorem combined_read_index10_safety :
    (∀ (synOk : Bool) (writes : List Nat) (reads : List (List Nat)),
        (∀ f ∈ reads, f ≠ [] → 11 ≤ f.length) →
        do_combined_read_messages synOk writes reads ≠ .oob) ∧
    do_combined_read_messages true [1] [[5]] = .oob := by
  constructor
  · intro synOk writes reads hpre
    unfold do_combined_read_messages
    by_cases hs : synOk
    · rw [hs]
      cases writes with
      | nil => simp
      | cons w ws =>
        by_cases hw : w = 0
        · simp [hw]
        · simp only [hw, Bool.not_true, Bool.false_eq_true, if_false, ite_false]
          exact combinedLoop_not_oob 20 0xFF ws reads [] 0 hpre
    · simp [hs]
  · rfl

/-- Witness for C10: an 11-byte frame satisfies the precondition and the
operation completes without the IndexError outcome. -/
theorem combined_read_index10_safety_witness :
    (∀ f ∈ [[0, 0, 0, 0, 0, 0, 0, 0, 0, 0, 0]], f ≠ ([] : List Nat) → 11 ≤ f.length) ∧
    do_combined_read_messages true [1] [[0, 0, 0, 0, 0, 0, 0, 0, 0, 0, 0]] ≠ .oob :=
  ⟨by decide,
    combined_read_index10_safety.1 true [1] [[0, 0, 0, 0, 0, 0, 0, 0, 0, 0, 0]] (by decide)⟩

/-- Helper for C7/C8: unfolding of the record loop on a non-empty
remainder. -/
theorem parseChunks_cons (fuel : Nat) (l : List Nat) (hl : l ≠ []) :
    parseChunks (fuel + 1) l =
      match decodeRecord (l.take 12) with
      | none => none
      | some r => (parseChunks fuel (l.drop 12)).map (r :: ·) := by
  cases l with
  | nil => exact absurd rfl hl
  | cons b rest => rfl

/-- Helper for C7/C8: the record loop on an exhausted remainder. -/
theorem parseChunks_nil (fuel : Nat) : parseChunks fuel [] = some [] := by
  cases fuel <;> rfl

/-- Helper for C7/C8: a full 12-byte slice decodes to its timestamp and
rounded value. -/
theorem decodeRecord_full (part : List Nat) (hp : part.length = 12) :
    decodeRecord part =
      some (sint32 (leWord (part.take 4)),
        (f32ToRat (leWord (part.drop 8))).map roundHalfEven) := by
  unfold decodeRecord
  rw [if_pos]
  constructor <;> simp [hp]

/-- C7: a 29-byte payload made of a 5-byte header and two complete 12-byte
records decodes to exactly 2 (timestamp, value) pairs: each timestamp is
the little-endian signed 32-bit integer at record bytes [0,4), each value
the IEEE-754 single at record bytes [8,12) rounded half-to-even to an
integer, and the returned sequence is the reverse of the raw record order
(chronologically ascending). -/
theorem parse_two_records (hdr r0 r1 : List Nat) (q0 q1 : Rat)
    (hh : hdr.length = 5) (h0 : r0.length = 12) (h1 : r1.length = 12)
    (hf0 : f32ToRat (leWord (r0.drop 8)) = some q0)
    (hf1 : f32ToRat (leWord (r1.drop 8)) = some q1) :
    parse_measurements (hdr ++ r0 ++ r1) =
      some (.records [(sint32 (leWord (r1.take 4)), some (roundHalfEven q1)),
                      (sint32 (leWord (r0.take 4)), some (roundHalfEven q0))]) := by
  have hlen : (hdr ++ r0 ++ r1).length = 29 := by
    simp [hh, h0, h1]
  unfold parse_measurements
  rw [if_neg (by omega), hlen]
  have hdrop5 : (hdr ++ r0 ++ r1).drop 5 = r0 ++ r1 := by
    rw [List.append_assoc, ← hh, List.drop_left]
  rw [hdrop5, show (29 : Nat) = 28 + 1 from rfl,
    parseChunks_cons 28 (r0 ++ r1) (by intro hnil; have := congrArg List.length hnil; simp [h0] at this)]
  have htake : (r0 ++ r1).take 12 = r0 := by rw [← h0, List.take_left]
  have hdrop : (r0 ++ r1).drop 12 = r1 := by rw [← h0, List.drop_left]
  rw [htake, hdrop, decodeRecord_full r0 h0, hf0]
  rw [show (28 : Nat) = 27 + 1 from rfl,
    parseChunks_cons 27 r1 (by intro hnil; have := congrArg List.length hnil; simp [h1] at this)]
  have htake1 : r1.take 12 = r1 := List.take_of_length_le (by omega)
  have hdrop1 : r1.drop 12 = [] := List.drop_eq_nil_of_le (by omega)
  rw [htake1, hdrop1, decodeRecord_full r1 h1, hf1, parseChunks_nil]
  rfl

/-- Witness for C7: a concrete header and two records with timestamps 1
and 2 and single-precision values 42.0 and 7.5; the result lists the
records in ascending-timestamp order with values rounded to 42 and 8. -/
theorem parse_two_records_witness :
    ([0, 0, 0, 0, 0] : List Nat).length = 5 ∧
    ([1, 0, 0, 0, 0, 0, 0, 0, 0x00, 0x00, 0x28, 0x42] : List Nat).length = 12 ∧
    f32ToRat (leWord (([1, 0, 0, 0, 0, 0, 0, 0, 0x00, 0x00, 0x28, 0x42] : List Nat).drop 8)) =
      some 42 ∧
    parse_measurements
        ([0, 0, 0, 0, 0] ++ [1, 0, 0, 0, 0, 0, 0, 0, 0x00, 0x00, 0x28, 0x42] ++
          [2, 0, 0, 0, 0, 0, 0, 0, 0x00, 0x00, 0xf0, 0x40]) =
      some (.records [(2, some 8), (1, some 42)]) := by
  refine ⟨by decide, by decide, by with_unfolding_all decide, ?_⟩
  have h := parse_two_records [0, 0, 0, 0, 0]
    [1, 0, 0, 0, 0, 0, 0, 0, 0x00, 0x00, 0x28, 0x42]
    [2, 0, 0, 0, 0, 0, 0, 0, 0x00, 0x00, 0xf0, 0x40]
    42 (15 / 2) (by decide) (by decide) (by decide)
    (by with_unfolding_all decide) (by with_unfolding_all decide)
  exact h.trans (by with_unfolding_all decide)

/-- Counterexample for C8: the non-empty 6-byte payload
`[0,0,0,0,0,9]` has `(length - 5) % 12 = 1 ≠ 0`; the claim says the
decoder ignores the leftover byte and returns the records of the complete
slices (here none), but `__parse_measurements` raises instead:
`struct.unpack` with format f is called on fewer than 4 bytes. -/
theorem parse_short_tail_counterexample :
    parse_measurements [0, 0, 0, 0, 0, 9] = none ∧
    parse_measurements [0, 0, 0, 0, 0, 9] ≠ some (.records []) := by
  constructor
  · rfl
  · intro h
    cases h

/-- Helper for C8: the record loop fails on any leftover whose length is
not a multiple of 12. -/
theorem parseChunks_short_tail (fuel : Nat) :
    ∀ l : List Nat, l ≠ [] → l.length % 12 ≠ 0 → l.length ≤ fuel →
      parseChunks fuel l = none := by
  induction fuel with
  | zero =>
    intro l hne hmod hle
    cases l with
    | nil => exact absurd rfl hne
    | cons b r => simp at hle
  | succ fuel ih =>
    intro l hne hmod hle
    rw [parseChunks_cons fuel l hne]
    by_cases h12 : l.length < 12
    · have hdec : decodeRecord (l.take 12) = none := by
        unfold decodeRecord
        rw [if_neg]
        intro hk
        have := hk.1
        simp [List.length_drop, List.length_take] at this
        omega
      rw [hdec]
    · push_neg at h12
      have h12' : 12 < l.length := by
        rcases Nat.lt_or_ge 12 l.length with h | h
        · exact h
        · exfalso; have : l.length = 12 := by omega
          rw [this] at hmod; simp at hmod
      rw [decodeRecord_full (l.take 12) (by simp [List.length_take]; omega)]
      rw [ih (l.drop 12) ?hne2 ?hmod2 ?hle2]
      · rfl
      case hne2 =>
        intro hnil
        have := congrArg List.length hnil
        simp [List.length_drop] at this
        omega
      case hmod2 => simp [List.length_drop]; omega
      case hle2 => simp [List.length_drop]; omega

/-- C8 (as amended): for every payload longer than 5 bytes whose length
minus 5 is not a multiple of 12, `__parse_measurements` does not silently
ignore the trailing short record: decoding the short final slice raises
struct.error (fewer than 4 bytes to unpack as format f), so the call
fails instead of returning the complete records. -/
theorem parse_short_tail_raises (rawdata : List Nat)
    (hgt : 5 < rawdata.length) (hmod : (rawdata.length - 5) % 12 ≠ 0) :
    parse_measurements rawdata = none := by
  unfold parse_measurements
  rw [if_neg (by omega)]
  rw [parseChunks_short_tail rawdata.length (rawdata.drop 5) ?hne ?hmod2 ?hle]
  · rfl
  case hne =>
    intro hnil
    have := congrArg List.length hnil
    simp [List.length_drop] at this
    omega
  case hmod2 => simp [List.length_drop]; omega
  case hle => simp [List.length_drop]

/-- Witness for C8 (amended): a 7-byte payload (leftover of 2 bytes after
the 5-byte header) makes the decoder fail. -/
theorem parse_short_tail_raises_witness :
    5 < ([1, 1, 1, 1, 1, 1, 1] : List Nat).length ∧
    (([1, 1, 1, 1, 1, 1, 1] : List Nat).length - 5) % 12 ≠ 0 ∧
    parse_measurements [1, 1, 1, 1, 1, 1, 1] = none :=
  ⟨by decide, by decide, parse_short_tail_raises [1, 1, 1, 1, 1, 1, 1] (by decide) (by decide)⟩

/-- C2 (code bug): after a successful syn-online handshake, when the send
of the live-data command reports zero bytes written, `get_measurements`
does not return the sentinel 0: it skips the `resu > 0` block and falls
through to `return (pac, etoday, etotal)` with all three locals unbound,
raising UnboundLocalError.  The other half of the claim does hold: a
successful send followed by an empty assembled frame returns the
sentinel 0. -/
theorem get_measurements_zero_write_raises :
    get_measurements true 1 0 [] = .unboundLocal ∧
    get_measurements true 1 1 [] = .sentinelZero ∧
    MeasOutcome.unboundLocal ≠ MeasOutcome.sentinelZero := by
  refine ⟨rfl, rfl, ?_⟩
  intro h
  cases h
